import Mathlib

/-!
Shallow embedding of `models/mobilenetv2.py` (MobileNetV2 with optional
learned-quantization convolutions) and proofs about it.

Python reals are modelled as rationals, Python ints as `ℤ`, and Python
default arguments as `Option` parameters.  Constructors that can raise
(`assert` statements) return `Except String`.  The tensor runtime (torch)
is out of scope per the spec, so forward passes are defined over an
arbitrary interpretation `TensorOps α` of the tensor primitives; a shape
interpretation and a trace interpretation are given below.
-/

/-- Rational addition written through `mkRat` so that it reduces inside the
kernel (`Rat.add` itself does not); proved equal to `+` in `qadd_eq`. -/
def qadd (a b : ℚ) : ℚ := mkRat (a.num * b.den + b.num * a.den) (a.den * b.den)

/-- Rational subtraction through `mkRat`; proved equal to `-` in `qsub_eq`. -/
def qsub (a b : ℚ) : ℚ := mkRat (a.num * b.den - b.num * a.den) (a.den * b.den)

/-- Rational multiplication through `mkRat`; proved equal to `*` in `qmul_eq`. -/
def qmul (a b : ℚ) : ℚ := mkRat (a.num * b.num) (a.den * b.den)

/-- Rational division through `Rat.divInt`; proved equal to `/` in `qdiv_eq`. -/
def qdiv (a b : ℚ) : ℚ := Rat.divInt (a.num * (b.den : ℤ)) ((a.den : ℤ) * b.num)

theorem qadd_eq (a b : ℚ) : qadd a b = a + b := (Rat.add_def' a b).symm

theorem qsub_eq (a b : ℚ) : qsub a b = a - b := (Rat.sub_def' a b).symm

theorem qmul_eq (a b : ℚ) : qmul a b = a * b := by
  rw [qmul, Rat.mul_def, Rat.normalize_eq_mkRat]

theorem qdiv_eq (a b : ℚ) : qdiv a b = a / b := by
  rcases eq_or_ne b 0 with rfl | hb
  · simp [qdiv]
  · have hbn : b.num ≠ 0 := Rat.num_ne_zero.mpr hb
    have had : (a.den : ℤ) ≠ 0 := Int.natCast_ne_zero.mpr a.den_nz
    rw [qdiv, Rat.div_def, Rat.inv_def]
    conv_rhs => rw [← Rat.num_divInt_den a]
    rw [Rat.divInt_mul_divInt _ _ had hbn]

/-- Python `int(x)` on a float/rational: truncation toward zero. -/
def pyInt (x : ℚ) : ℤ :=
  if 0 ≤ x then ⌊x⌋ else ⌈x⌉

/-- Python 3 `round(x)`: round half to even (used for `hidden_dim = round(inp * expand_ratio)`). -/
def pyRound (x : ℚ) : ℤ :=
  let f := ⌊x⌋
  let r := qsub x (f : ℚ)
  if r < qdiv 1 2 then f
  else if qdiv 1 2 < r then f + 1
  else if f % 2 = 0 then f else f + 1

/-- `_make_divisible(v, divisor, min_value=None)` from the source:
`new_v = max(min_value, int(v + divisor / 2) // divisor * divisor)`,
bumped by one `divisor` when `new_v < 0.9 * v`. -/
def make_divisible (v : ℚ) (divisor : ℤ) (min_value : Option ℤ := none) : ℤ :=
  let m := min_value.getD divisor
  let new_v := max m ((pyInt (qadd v (qdiv (divisor : ℚ) 2))).fdiv divisor * divisor)
  if (new_v : ℚ) < qmul (qdiv 9 10) v then new_v + divisor else new_v

/-- The three quantization switches threaded to every primitive
(`is_qt`, `lq`, `fwlq` keyword arguments in the source). -/
structure QuantCfg where
  is_qt : Bool
  lq : Bool
  fwlq : Bool
  deriving DecidableEq

/-- Modelled from the spec: the `functions` module defining `LQ_Conv2d` is not
under `src/`; section 4.2 fixes its mode selection — `is_qt` takes precedence
over `lq`, and `fwlq` only has meaning combined with `lq`. -/
inductive QMode where
  | plain
  | learned (weightsOnly : Bool)
  | qtest
  deriving DecidableEq

/-- Modelled from the spec: behaviour-mode resolution of a quantized primitive,
per section 4.2 (`is_qt` precedence; `fwlq` ignored when `lq` is false).
Construction of `LQ_Conv2d` stores the flags and raises no error. -/
def QuantCfg.mode (c : QuantCfg) : QMode :=
  if c.is_qt then .qtest
  else if c.lq then .learned c.fwlq
  else .plain

/-- Hyperparameters of a (possibly quantized) 2-D convolution, in the order
they are passed in the source: `Conv2d(inp, oup, k, stride, padding, groups, bias)`. -/
structure Conv2dParams where
  in_channels : ℤ
  out_channels : ℤ
  kernel_size : ℤ
  stride : ℤ
  padding : ℤ
  groups : ℤ
  bias : Bool
  deriving DecidableEq

/-- One module of an `nn.Sequential` pipeline as built by the source:
a plain `nn.Conv2d`, a quantization-aware `LQ_Conv2d` (returns a
`(tensor, auxiliary)` pair when called), a `nn.BatchNorm2d`, or `nn.ReLU6`. -/
inductive Layer where
  | conv2d (p : Conv2dParams)
  | lqconv (p : Conv2dParams) (cfg : QuantCfg)
  | batchNorm (num_features : ℤ)
  | relu6
  deriving DecidableEq

/-- Whether a module is a quantization-aware convolution. -/
def Layer.isLQ : Layer → Bool
  | .lqconv _ _ => true
  | _ => false

/-- Number of quantization-aware convolutions in a pipeline. -/
def countLQ (ls : List Layer) : ℕ :=
  ls.countP Layer.isLQ

/-- An interpretation of the external tensor runtime: one forward function per
primitive kind, over an arbitrary carrier `α` (4-D tensors in torch).  An
`LQ_Conv2d` call returns its output together with a scalar auxiliary signal. -/
structure TensorOps (α : Type) where
  conv2d : Conv2dParams → α → α
  lqconv : Conv2dParams → QuantCfg → α → α × ℚ
  batchNorm : ℤ → α → α
  relu6 : α → α
  avgpool : α → α
  flatten : α → α
  linear : ℤ → ℤ → α → α
  add : α → α → α

/-- Apply one module; for an `LQ_Conv2d` the auxiliary signal is discarded,
as every call site in the source does (`out, _ = self.conv[i](x)`). -/
def applyLayer {α : Type} (ops : TensorOps α) : Layer → α → α
  | .conv2d p, x => ops.conv2d p x
  | .lqconv p cfg, x => (ops.lqconv p cfg x).1
  | .batchNorm c, x => ops.batchNorm c x
  | .relu6, x => ops.relu6 x

/-- Run an `nn.Sequential` pipeline left to right. -/
def runLayers {α : Type} (ops : TensorOps α) : List Layer → α → α
  | [], x => x
  | l :: ls, x => runLayers ops ls (applyLayer ops l x)

/-- Python slice `ls[a:b]`. -/
def pySlice (ls : List Layer) (a b : ℕ) : List Layer :=
  (ls.take b).drop a

/-- Python indexing `ls[i](x)`: apply the module at index `i`
(`none` models the `IndexError` on an out-of-range index). -/
def applyAt {α : Type} (ops : TensorOps α) (ls : List Layer) (i : ℕ) (x : α) : Option α :=
  (ls.get? i).map fun l => applyLayer ops l x

/-- `conv_3x3_bn(inp, oup, stride, is_qt, lq, fwlq)`: the stem stage.  The
quantization flags are accepted but unused — the convolution is a plain
`nn.Conv2d`. -/
def conv_3x3_bn (inp oup stride : ℤ) (is_qt lq fwlq : Bool) : List Layer :=
  [Layer.conv2d ⟨inp, oup, 3, stride, 1, 1, false⟩,
   Layer.batchNorm oup,
   Layer.relu6]

/-- `conv_1x1_bn(inp, oup, lq, is_qt, fwlq)`: the head projection stage, built
on a quantizable `LQ_Conv2d`. -/
def conv_1x1_bn (inp oup : ℤ) (lq is_qt fwlq : Bool) : List Layer :=
  [Layer.lqconv ⟨inp, oup, 1, 1, 0, 1, false⟩ ⟨is_qt, lq, fwlq⟩,
   Layer.batchNorm oup,
   Layer.relu6]

/-- The state an `InvertedResidual` instance keeps after `__init__`:
the `identity` flag, the `expand_ratio` (field `expand_r` here; named
`expand_ratio` in the source), and the `self.conv` sequential pipeline. -/
structure InvertedResidual where
  identity : Bool
  expand_r : ℚ
  conv : List Layer
  deriving DecidableEq

/-- `InvertedResidual.__init__(inp, oup, stride, expand_ratio, is_qt, lq, fwlq)`.
Fails (assert) unless `stride` is 1 or 2; `hidden_dim = round(inp * expand_ratio)`;
`identity = (stride == 1 and inp == oup)`; the pipeline has 5 modules
(2 quantized convolutions) when `expand_ratio == 1` and 8 modules
(3 quantized convolutions) otherwise. -/
def InvertedResidual.make (inp oup stride : ℤ) (t : ℚ) (cfg : QuantCfg) :
    Except String InvertedResidual :=
  if stride = 1 ∨ stride = 2 then
    let hidden_dim := pyRound (qmul (inp : ℚ) t)
    .ok { identity := stride == 1 && inp == oup
          expand_r := t
          conv :=
            if t = 1 then
              [Layer.lqconv ⟨inp, hidden_dim, 3, stride, 1, hidden_dim, false⟩ cfg,
               Layer.batchNorm hidden_dim,
               Layer.relu6,
               Layer.lqconv ⟨hidden_dim, oup, 1, 1, 0, 1, false⟩ cfg,
               Layer.batchNorm oup]
            else
              [Layer.lqconv ⟨inp, hidden_dim, 1, 1, 0, 1, false⟩ cfg,
               Layer.batchNorm hidden_dim,
               Layer.relu6,
               Layer.lqconv ⟨hidden_dim, hidden_dim, 3, stride, 1, hidden_dim, false⟩ cfg,
               Layer.batchNorm hidden_dim,
               Layer.relu6,
               Layer.lqconv ⟨hidden_dim, oup, 1, 1, 0, 1, false⟩ cfg,
               Layer.batchNorm oup] }
  else .error "AssertionError"

/-- `InvertedResidual.forward`, following the source's explicit slicing:
`conv[0]`, `conv[1:3]`, `conv[3]`, then `conv[4]` in the `expand_ratio == 1`
branch, and `conv[4:6]`, `conv[6]` in the other branch (note: `conv[7]` is
never applied there), followed by the optional residual add. -/
def InvertedResidual.forward {α : Type} (b : InvertedResidual) (ops : TensorOps α)
    (x : α) : Option α :=
  (if b.expand_r = 1 then
    (applyAt ops b.conv 0 x).bind fun out =>
      (applyAt ops b.conv 3 (runLayers ops (pySlice b.conv 1 3) out)).bind fun out =>
        applyAt ops b.conv 4 out
  else
    (applyAt ops b.conv 0 x).bind fun out =>
      (applyAt ops b.conv 3 (runLayers ops (pySlice b.conv 1 3) out)).bind fun out =>
        applyAt ops b.conv 6 (runLayers ops (pySlice b.conv 4 6) out)).map
    fun out => if b.identity then ops.add x out else out

/-- One entry of `self.features`: the stem `nn.Sequential` stage or an
`InvertedResidual` block. -/
inductive Feature where
  | stage (layers : List Layer)
  | block (b : InvertedResidual)
  deriving DecidableEq

/-- Forward through one feature. -/
def runFeature {α : Type} (ops : TensorOps α) (x : α) : Feature → Option α
  | .stage ls => some (runLayers ops ls x)
  | .block b => b.forward ops x

/-- Forward through `self.features`. -/
def runFeatures {α : Type} (ops : TensorOps α) : List Feature → α → Option α
  | [], x => some x
  | f :: fs, x => (runFeature ops x f).bind (runFeatures ops fs)

/-- The inverted-residual stage configuration table `self.cfgs`:
rows `(t, c, n, s)` = (expansion, output channels, repeats, first stride). -/
def cfgs : List (ℚ × ℚ × ℕ × ℤ) :=
  [(1, 16, 1, 1),
   (6, 24, 2, 2),
   (6, 32, 3, 2),
   (6, 64, 4, 2),
   (6, 96, 3, 1),
   (6, 160, 3, 2),
   (6, 320, 1, 1)]

/-- The width multiplier, hard-coded to 1 as the local `width_mult = 1`
in `MobileNetV2.__init__`. -/
def width_mult : ℚ := 1

/-- The divisor expression `4 if width_mult == 0.1 else 8` used at every
channel-rounding site in `MobileNetV2.__init__`. -/
def divisorFor (wm : ℚ) : ℤ :=
  if wm = qdiv 1 10 then 4 else 8

/-- The inner loop `for i in range(n)` of the builder: `remaining` blocks left
to build, `i` the current index, `ic` the running `input_channel`.  The block
stride is `s if i == 0 else 1`, and `input_channel = output_channel` after
each block.  Returns the blocks and the final running channel count. -/
def rowLoop (cfg : QuantCfg) (t : ℚ) (oc s : ℤ) :
    ℕ → ℕ → ℤ → Except String (List InvertedResidual × ℤ)
  | 0, _, ic => .ok ([], ic)
  | r + 1, i, ic => do
      let b ← InvertedResidual.make ic oc (if i = 0 then s else 1) t cfg
      let rest ← rowLoop cfg t oc s r (i + 1) oc
      .ok (b :: rest.1, rest.2)

/-- The outer loop `for t, c, n, s in self.cfgs` of the builder:
round `output_channel`, run the inner loop, thread the channel count. -/
def buildRows (cfg : QuantCfg) (wm : ℚ) :
    List (ℚ × ℚ × ℕ × ℤ) → ℤ → Except String (List Feature × ℤ)
  | [], ic => .ok ([], ic)
  | (t, c, n, s) :: rows, ic => do
      let oc := make_divisible (qmul c wm) (divisorFor wm) none
      let bs ← rowLoop cfg t oc s n 0 ic
      let rest ← buildRows cfg wm rows bs.2
      .ok (bs.1.map Feature.block ++ rest.1, rest.2)

/-- The state a `MobileNetV2` instance keeps after `__init__`:
`self.features`, the head `self.conv`, and the classifier
`nn.Linear(output_channel, num_classes)` (recorded by its two sizes);
`self.avgpool` is the fixed `AdaptiveAvgPool2d((1, 1))`. -/
structure MobileNetV2 where
  features : List Feature
  conv : List Layer
  classifier : ℤ × ℤ
  deriving DecidableEq

/-- `MobileNetV2.__init__(num_classes, is_qt, lq, fwlq, index)`.  The `index`
argument is accepted (and defaulted to `[]` in the source) but never read. -/
def MobileNetV2.build (num_classes : ℤ) (is_qt lq fwlq : Bool) (index : List ℤ) :
    Except String MobileNetV2 := do
  let input_channel := make_divisible (qmul 32 width_mult) (divisorFor width_mult) none
  let stem := conv_3x3_bn 3 input_channel 2 is_qt lq fwlq
  let rows ← buildRows ⟨is_qt, lq, fwlq⟩ width_mult cfgs input_channel
  let output_channel :=
    if width_mult > 1 then make_divisible (qmul 1280 width_mult) (divisorFor width_mult) none
    else 1280
  .ok { features := Feature.stage stem :: rows.1
        conv := conv_1x1_bn rows.2 output_channel lq is_qt fwlq
        classifier := (output_channel, num_classes) }

/-- `MobileNetV2.forward`: features, then `x, _ = self.conv[0](x)` and
`x = self.conv[1:](x)`, average pool, flatten, classifier, and the returned
pair `(x, torch.Tensor([0]).cuda())` — the auxiliary component is the
literal constant 0. -/
def MobileNetV2.forward {α : Type} (net : MobileNetV2) (ops : TensorOps α)
    (x : α) : Option (α × ℚ) :=
  (runFeatures ops net.features x).bind fun x1 =>
    (applyAt ops net.conv 0 x1).map fun x2 =>
      (ops.linear net.classifier.1 net.classifier.2
        (ops.flatten (ops.avgpool (runLayers ops (net.conv.drop 1) x2))), 0)

/-- `mobilenetv2_cifar(num_classes, is_qt, lq, index, fwlq)`: forwards all of
its arguments, `index` included, to the `MobileNetV2` constructor. -/
def mobilenetv2_cifar (num_classes : ℤ) (is_qt lq : Bool) (index : List ℤ)
    (fwlq : Bool) : Except String MobileNetV2 :=
  MobileNetV2.build num_classes is_qt lq fwlq index

/-- The head output-channel count as the spec sentence words it:
"1280 × width_multiplier rounded channels, or 1280 if width_multiplier > 1"
(to be compared with the expression in `MobileNetV2.build`). -/
def headChannelsSpec : ℤ :=
  if width_mult > 1 then 1280
  else make_divisible (qmul 1280 width_mult) (divisorFor width_mult) none

/-- A tensor shape `[N, C, H, W]` (or `[N, F]` after flattening). -/
abbrev TShape := List ℤ

/-- Output shape of a strided/padded/grouped convolution, with the standard
validity checks: channel match, group divisibility, kernel fits. -/
def convOutShape (p : Conv2dParams) : Option TShape → Option TShape :=
  fun s => s.bind fun sh =>
    match sh with
    | [n, c, h, w] =>
        if c = p.in_channels ∧ 0 < p.stride ∧ 0 < p.groups ∧
            p.in_channels % p.groups = 0 ∧ p.out_channels % p.groups = 0 ∧
            p.kernel_size ≤ h + 2 * p.padding ∧ p.kernel_size ≤ w + 2 * p.padding then
          some [n, p.out_channels,
                (h + 2 * p.padding - p.kernel_size).fdiv p.stride + 1,
                (w + 2 * p.padding - p.kernel_size).fdiv p.stride + 1]
        else none
    | _ => none

/-- The shape-level interpretation of the tensor runtime: carrier
`Option TShape`, `none` = shape error. -/
def shapeOps : TensorOps (Option TShape) where
  conv2d := convOutShape
  lqconv p _ s := (convOutShape p s, 0)
  batchNorm ch s := s.bind fun sh =>
    match sh with
    | [n, c, h, w] => if c = ch then some [n, c, h, w] else none
    | _ => none
  relu6 s := s
  avgpool s := s.bind fun sh =>
    match sh with
    | [n, c, _, _] => some [n, c, 1, 1]
    | _ => none
  flatten s := s.bind fun sh =>
    match sh with
    | [n, c, h, w] => some [n, c * h * w]
    | _ => none
  linear inF outF s := s.bind fun sh =>
    match sh with
    | [n, f] => if f = inF then some [n, outF] else none
    | _ => none
  add s t := if s = t then s else none

/-- The trace interpretation: the carrier is the list of modules applied so
far, so a forward pass records exactly which modules it ran, in order. -/
def traceOps : TensorOps (List Layer) where
  conv2d p x := x ++ [Layer.conv2d p]
  lqconv p cfg x := (x ++ [Layer.lqconv p cfg], 0)
  batchNorm c x := x ++ [Layer.batchNorm c]
  relu6 x := x ++ [Layer.relu6]
  avgpool x := x
  flatten x := x
  linear _ _ x := x
  add _ y := y

/-- C1: for every positive rational `v` and divisor `d ∈ {4, 8}`, with
`min_value` left at its default, `_make_divisible` returns a positive
multiple of `d` that is at least `0.9 * v`. -/
theorem make_divisible_spec (v : ℚ) (d : ℤ) (hv : 0 < v) (hd : d = 4 ∨ d = 8) :
    0 < make_divisible v d none ∧ d ∣ make_divisible v d none ∧
      9 / 10 * v ≤ (make_divisible v d none : ℚ) := by
  have hd0 : (0 : ℤ) < d := by rcases hd with rfl | rfl <;> norm_num
  have hdq : (0 : ℚ) < (d : ℚ) := by exact_mod_cast hd0
  have hx0 : (0 : ℚ) ≤ v + (d : ℚ) / 2 := by linarith
  have hmpy : pyInt (v + (d : ℚ) / 2) = ⌊v + (d : ℚ) / 2⌋ := by
    unfold pyInt; exact if_pos hx0
  have hmlb : v + (d : ℚ) / 2 - 1 < (⌊v + (d : ℚ) / 2⌋ : ℚ) := Int.sub_one_lt_floor _
  set m := ⌊v + (d : ℚ) / 2⌋ with hm_def
  have hfd : m.fdiv d = m / d := Int.fdiv_eq_ediv m (le_of_lt hd0)
  have hbase1 : m / d * d + m % d = m := by
    rw [mul_comm]; exact Int.ediv_add_emod m d
  have h2 : 0 ≤ m % d := Int.emod_nonneg m (ne_of_gt hd0)
  have h3 : m % d < d := Int.emod_lt_of_pos m hd0
  have hXlb : m - d + 1 ≤ m / d * d := by omega
  have hbase_lb : v - (d : ℚ) / 2 < ((m / d * d : ℤ) : ℚ) := by
    have hc : ((m - d + 1 : ℤ) : ℚ) ≤ ((m / d * d : ℤ) : ℚ) := by exact_mod_cast hXlb
    push_cast at hc ⊢
    linarith
  unfold make_divisible
  simp only [qadd_eq, qdiv_eq, qmul_eq, Option.getD, hmpy, hfd]
  set A := max d (m / d * d) with hA
  have hAlb1 : d ≤ A := le_max_left _ _
  have hAlb2 : m / d * d ≤ A := le_max_right _ _
  have hAdvd : d ∣ A := by
    rcases max_choice d (m / d * d) with h | h
    · rw [hA, h]
    · rw [hA, h]; exact dvd_mul_left d (m / d)
  have hAq : v - (d : ℚ) / 2 < (A : ℚ) := by
    refine lt_of_lt_of_le hbase_lb ?_
    exact_mod_cast hAlb2
  split_ifs with hlt
  · refine ⟨by omega, dvd_add hAdvd dvd_rfl, ?_⟩
    have h910 : 9 / 10 * v < v := by linarith
    push_cast
    linarith
  · exact ⟨by omega, hAdvd, le_of_not_lt hlt⟩

/-- Witness for C1 at `v = 10`, `d = 8` (the bump fires: `8 < 9 ≤ 16`). -/
theorem make_divisible_spec_witness :
    (0 : ℚ) < 10 ∧ ((8 : ℤ) = 4 ∨ (8 : ℤ) = 8) ∧
      (0 < make_divisible 10 8 none ∧ (8 : ℤ) ∣ make_divisible 10 8 none ∧
        9 / 10 * 10 ≤ (make_divisible 10 8 none : ℚ)) :=
  ⟨by norm_num, Or.inr rfl, make_divisible_spec 10 8 (by norm_num) (Or.inr rfl)⟩

/-- C2 counterexample: constructing the network with both mutually exclusive
quantization flags set (`is_qt = true`, `lq = true`) does NOT fail — the
constructor runs no mutual-exclusion check and returns a network. -/
theorem both_flags_not_fatal :
    (MobileNetV2.build 1000 true true false []).isOk = true := by rfl

/-- C2 amended: construction with `is_qt = true` and `lq = true` succeeds for
every `num_classes`, `fwlq` and `index`; the conflict is resolved inside each
primitive by `is_qt` precedence (mode `qtest`), not rejected. -/
theorem both_flags_precedence (nc : ℤ) (fw : Bool) (idx : List ℤ) :
    (MobileNetV2.build nc true true fw idx).isOk = true ∧
      QuantCfg.mode ⟨true, true, fw⟩ = QMode.qtest :=
  ⟨rfl, rfl⟩

/-- C3: for every network value, every input and every interpretation of the
tensor primitives, whenever the top-level forward call returns, its
auxiliary-signal component is the constant 0. -/
theorem forward_aux_zero (α : Type) (ops : TensorOps α) (net : MobileNetV2) (x : α) :
    ((MobileNetV2.forward net ops x).all fun r => r.2 == 0) = true := by
  unfold MobileNetV2.forward
  cases runFeatures ops net.features x with
  | none => rfl
  | some y =>
    simp only [Option.some_bind]
    cases applyAt ops net.conv 0 y with
    | none => rfl
    | some z => rfl

/-- C4: the block `InvertedResidual(8, 16, 1, 6)` (so `expand_ratio ≠ 1`)
builds an 8-module pipeline ending in a `BatchNorm`, but its forward pass
applies exactly the first 7 modules — the final `BatchNorm` (`conv[7]`) is
constructed and never applied, so the forward result is not the output of
the full internal stage pipeline.  (`identity` is `false` here, so the
result is `out` alone, as recorded by the trace interpretation.) -/
theorem block_skips_final_bn :
    (InvertedResidual.make 8 16 1 6 ⟨false, false, false⟩).map
        (fun b => (b.forward traceOps [] == some b.conv.dropLast,
                   b.conv.getLast? == some (Layer.batchNorm 16),
                   b.conv.dropLast == b.conv,
                   b.identity)) = .ok (true, true, false, false) := by rfl

/-- C5: a block with a valid stride builds, and its pipeline is exactly the
2-quantized-convolution sequence (depthwise+BN+ReLU6, projection+BN) when
`expand_ratio = 1`, and the 3-quantized-convolution sequence
(expansion+BN+ReLU6, depthwise+BN+ReLU6, projection+BN) otherwise, with
hidden width `round(inp * expand_ratio)` and the depthwise convolution
grouped by its own channel count. -/
theorem block_pipeline (inp oup stride : ℤ) ( t : ℚ) (cfg : QuantCfg)
    (hs : stride = 1 ∨ stride = 2) :
    ∃ b, InvertedResidual.make inp oup stride t cfg = .ok b ∧
      b.conv =
        (if t = 1 then
          [Layer.lqconv ⟨inp, pyRound (qmul (inp : ℚ) t), 3, stride, 1,
              pyRound (qmul (inp : ℚ) t), false⟩ cfg,
           Layer.batchNorm (pyRound (qmul (inp : ℚ) t)),
           Layer.relu6,
           Layer.lqconv ⟨pyRound (qmul (inp : ℚ) t), oup, 1, 1, 0, 1, false⟩ cfg,
           Layer.batchNorm oup]
        else
          [Layer.lqconv ⟨inp, pyRound (qmul (inp : ℚ) t), 1, 1, 0, 1, false⟩ cfg,
           Layer.batchNorm (pyRound (qmul (inp : ℚ) t)),
           Layer.relu6,
           Layer.lqconv ⟨pyRound (qmul (inp : ℚ) t), pyRound (qmul (inp : ℚ) t), 3,
              stride, 1, pyRound (qmul (inp : ℚ) t), false⟩ cfg,
           Layer.batchNorm (pyRound (qmul (inp : ℚ) t)),
           Layer.relu6,
           Layer.lqconv ⟨pyRound (qmul (inp : ℚ) t), oup, 1, 1, 0, 1, false⟩ cfg,
           Layer.batchNorm oup]) ∧
      countLQ b.conv = (if t = 1 then 2 else 3) := by
  unfold InvertedResidual.make
  rw [if_pos hs]
  refine ⟨_, rfl, rfl, ?_⟩
  by_cases ht : t = 1
  · rw [if_pos ht, if_pos ht]; rfl
  · rw [if_neg ht, if_neg ht]; rfl

/-- Witness for C5 at `InvertedResidual(16, 16, 1, 6)` (the 3-convolution branch). -/
theorem block_pipeline_witness :
    ((1 : ℤ) = 1 ∨ (1 : ℤ) = 2) ∧
      (∃ b, InvertedResidual.make 16 16 1 6 ⟨false, false, false⟩ = .ok b ∧
        b.conv =
          (if (6 : ℚ) = 1 then
            [Layer.lqconv ⟨16, pyRound (qmul ((16 : ℤ) : ℚ) 6), 3, 1, 1,
                pyRound (qmul ((16 : ℤ) : ℚ) 6), false⟩ ⟨false, false, false⟩,
             Layer.batchNorm (pyRound (qmul ((16 : ℤ) : ℚ) 6)),
             Layer.relu6,
             Layer.lqconv ⟨pyRound (qmul ((16 : ℤ) : ℚ) 6), 16, 1, 1, 0, 1, false⟩
                ⟨false, false, false⟩,
             Layer.batchNorm 16]
          else
            [Layer.lqconv ⟨16, pyRound (qmul ((16 : ℤ) : ℚ) 6), 1, 1, 0, 1, false⟩
                ⟨false, false, false⟩,
             Layer.batchNorm (pyRound (qmul ((16 : ℤ) : ℚ) 6)),
             Layer.relu6,
             Layer.lqconv ⟨pyRound (qmul ((16 : ℤ) : ℚ) 6), pyRound (qmul ((16 : ℤ) : ℚ) 6),
                3, 1, 1, pyRound (qmul ((16 : ℤ) : ℚ) 6), false⟩ ⟨false, false, false⟩,
             Layer.batchNorm (pyRound (qmul ((16 : ℤ) : ℚ) 6)),
             Layer.relu6,
             Layer.lqconv ⟨pyRound (qmul ((16 : ℤ) : ℚ) 6), 16, 1, 1, 0, 1, false⟩
                ⟨false, false, false⟩,
             Layer.batchNorm 16]) ∧
        countLQ b.conv = (if (6 : ℚ) = 1 then 2 else 3)) :=
  ⟨Or.inl rfl, block_pipeline 16 16 1 6 ⟨false, false, false⟩ (Or.inl rfl)⟩

/-- A block constructor call with a valid stride succeeds. -/
theorem make_ok (inp oup s : ℤ) (t : ℚ) (cfg : QuantCfg) (hs : s = 1 ∨ s = 2) :
    ∃ b, InvertedResidual.make inp oup s t cfg = .ok b := by
  unfold InvertedResidual.make
  rw [if_pos hs]
  exact ⟨_, rfl⟩

/-- After the first iteration (`i ≠ 0`), every remaining block of a row is
built with stride 1 and `in_channels = out_channels = oc`, and the running
channel count stays `oc`. -/
theorem rowLoop_tail (cfg : QuantCfg) (t : ℚ) (oc s : ℤ) :
    ∀ r i : ℕ, i ≠ 0 →
      ∃ b, InvertedResidual.make oc oc 1 t cfg = .ok b ∧
        rowLoop cfg t oc s r i oc = .ok (List.replicate r b, oc) := by
  intro r
  induction r with
  | zero =>
      intro i hi
      obtain ⟨b, hb⟩ := make_ok oc oc 1 t cfg (Or.inl rfl)
      exact ⟨b, hb, rfl⟩
  | succ r ih =>
      intro i hi
      obtain ⟨b, hb, hloop⟩ := ih (i + 1) (Nat.succ_ne_zero i)
      refine ⟨b, hb, ?_⟩
      unfold rowLoop
      rw [if_neg hi, hb, hloop]
      rfl

/-- C6: for a stage-table row `(t, c, n, s)` with a valid first stride and
`n > 0`, starting from running channel count `ic`, the builder loop produces
exactly `n` blocks: the first from `InvertedResidual.make ic oc s t`, all
remaining `n - 1` from `InvertedResidual.make oc oc 1 t`, where
`oc = make_divisible (c * width_mult)`, and the final running channel count
is `oc`. -/
theorem blocks_per_row (cfg : QuantCfg) ( t c : ℚ) (n : ℕ) (s ic oc : ℤ)
    (hs : s = 1 ∨ s = 2) (hn : 0 < n)
    (hoc : oc = make_divisible (qmul c width_mult) (divisorFor width_mult) none) :
    ∃ b0 b, InvertedResidual.make ic oc s t cfg = .ok b0 ∧
      InvertedResidual.make oc oc 1 t cfg = .ok b ∧
      rowLoop cfg t oc s n 0 ic = .ok (b0 :: List.replicate (n - 1) b, oc) := by
  obtain ⟨m, rfl⟩ : ∃ m, n = m + 1 := ⟨n - 1, (Nat.succ_pred_eq_of_pos hn).symm⟩
  obtain ⟨b0, hb0⟩ := make_ok ic oc s t cfg hs
  obtain ⟨b, hb, hloop⟩ := rowLoop_tail cfg t oc s m 1 one_ne_zero
  refine ⟨b0, b, hb0, hb, ?_⟩
  unfold rowLoop
  rw [if_pos (rfl : (0 : ℕ) = 0), hb0, show (0 : ℕ) + 1 = 1 from rfl, hloop]
  rfl

/-- Witness for C6 at the table row `(6, 24, 2, 2)` starting from 16 channels. -/
theorem blocks_per_row_witness :
    ((2 : ℤ) = 1 ∨ (2 : ℤ) = 2) ∧ 0 < 2 ∧
      ((24 : ℤ) = make_divisible (qmul 24 width_mult) (divisorFor width_mult) none) ∧
      (∃ b0 b, InvertedResidual.make 16 24 2 6 ⟨false, false, false⟩ = .ok b0 ∧
        InvertedResidual.make 24 24 1 6 ⟨false, false, false⟩ = .ok b ∧
        rowLoop ⟨false, false, false⟩ 6 24 2 2 0 16 = .ok (b0 :: List.replicate (2 - 1) b, 24)) :=
  ⟨Or.inr rfl, by decide, by rfl,
    blocks_per_row ⟨false, false, false⟩ 6 24 2 2 16 24 (Or.inr rfl) (by decide) (by rfl)⟩

/-- C7: for every choice of the quantization flags (and of `num_classes` and
`index`), the first feature of the built network is the stem stage
`conv_3x3_bn(3, 32, 2, ...)`, and that stage is a plain (non-quantized)
3x3 stride-2 convolution from 3 channels, BatchNorm, ReLU6 — the flags are
ignored. -/
theorem stem_unquantized (nc : ℤ) (iq lq fw : Bool) (idx : List ℤ) :
    (MobileNetV2.build nc iq lq fw idx).map (fun net => net.features.head?)
        = .ok (some (Feature.stage (conv_3x3_bn 3 32 2 iq lq fw))) ∧
      conv_3x3_bn 3 32 2 iq lq fw
        = [Layer.conv2d ⟨3, 32, 3, 2, 1, 1, false⟩, Layer.batchNorm 32, Layer.relu6] :=
  ⟨rfl, rfl⟩

/-- C8: the head stage of every built network is `conv_1x1_bn(320, 1280)` — a
1x1 quantizable convolution to 1280 channels — and 1280 agrees with the
spec formula `headChannelsSpec` (whose `width_mult > 1` alternative is
vacuous since `width_mult = 1`). -/
theorem head_projection (nc : ℤ) (iq lq fw : Bool) (idx : List ℤ) :
    (MobileNetV2.build nc iq lq fw idx).map (fun net => net.conv)
        = .ok (conv_1x1_bn 320 1280 lq iq fw) ∧
      conv_1x1_bn 320 1280 lq iq fw
        = [Layer.lqconv ⟨320, 1280, 1, 1, 0, 1, false⟩ ⟨iq, lq, fw⟩,
           Layer.batchNorm 1280, Layer.relu6] ∧
      (1280 : ℤ) = headChannelsSpec :=
  ⟨rfl, rfl, rfl⟩

set_option maxRecDepth 100000 in
set_option maxHeartbeats 2000000 in
/-- C9: the network built with `num_classes = 1000` and all quantization
flags off maps an input of shape [1, 3, 224, 224] to logits of shape
[1, 1000] (first component; the second is the auxiliary 0). -/
theorem network_shape :
    (MobileNetV2.build 1000 false false false []).map
        (fun net => MobileNetV2.forward net shapeOps (some [1, 3, 224, 224]))
      = .ok (some (some [1, 1000], 0)) := by rfl

/-- C10: the `index` argument has no effect: two constructions differing only
in `index` (directly or through `mobilenetv2_cifar`) yield equal networks,
hence identical topology and forward behaviour. -/
theorem index_unused (nc : ℤ) (iq lq fw : Bool) (i j : List ℤ) :
    MobileNetV2.build nc iq lq fw i = MobileNetV2.build nc iq lq fw j ∧
      mobilenetv2_cifar nc iq lq i fw = mobilenetv2_cifar nc iq lq j fw :=
  ⟨rfl, rfl⟩
